import Mathlib

/-!
Verification of `scaffoldmaker/utils/tubemesh.py` (tube mesh generation from a
central line and a segment profile).

The development shallowly embeds the numeric core of `generatetubemesh`,
`getOuterCoordinatesAndCurvatureFromInner` and `interpolatefromInnerAndOuter`
over the real numbers.  Python floats are modelled as exact reals.  Numeric
primitives that live in other modules of the repository
(`interpolation.getCubicHermiteCurvatureSimple`,
`interpolation.smoothCubicHermiteDerivativesLine`,
`matrix.getRotationMatrixFromAxisAngle`, `math.acos`) are taken as function
parameters, so every theorem about code that merely calls them holds for any
implementation of those primitives.  Python division, which raises
`ZeroDivisionError` on a zero divisor, is modelled by an `Option`-valued
division where that matters; a Python local variable that may be read before
assignment is modelled as an `Option` threaded through the loop state.
-/

namespace TubeMeshVerif

/-- Real 3-vector, modelling the `[x, y, z]` lists of the Python code. -/
@[ext] structure V3 where
  x : ℝ
  y : ℝ
  z : ℝ

/-- Zero vector, used as the out-of-range default for list reads. -/
def vzero : V3 := ⟨0, 0, 0⟩

/-- Componentwise sum, modelling `[a[j] + b[j] for j in range(3)]`. -/
def vadd (a b : V3) : V3 := ⟨a.x + b.x, a.y + b.y, a.z + b.z⟩

/-- Componentwise difference, modelling `[a[j] - b[j] for j in range(3)]`. -/
def vsub (a b : V3) : V3 := ⟨a.x - b.x, a.y - b.y, a.z - b.z⟩

/-- Scalar multiple, modelling `[c*v for v in a]`. -/
def vsmul (c : ℝ) (a : V3) : V3 := ⟨c * a.x, c * a.y, c * a.z⟩

/-- Dot product, modelling `vector.dotproduct`. -/
def vdot (a b : V3) : ℝ := a.x * b.x + a.y * b.y + a.z * b.z

/-- Cross product, modelling `vector.crossproduct3`. -/
def vcross (a b : V3) : V3 :=
  ⟨a.y * b.z - a.z * b.y, a.z * b.x - a.x * b.z, a.x * b.y - a.y * b.x⟩

/-- Euclidean norm, modelling `vector.magnitude` (`math.sqrt` of the sum of
squares). -/
noncomputable def vmag (a : V3) : ℝ := Real.sqrt (a.x * a.x + a.y * a.y + a.z * a.z)

/-- Normalisation, modelling `vector.normalise` (`[c/mag for c in v]`). -/
noncomputable def vnorm (a : V3) : V3 := vsmul (1 / vmag a) a

/-- Row-major 3×3 matrix, modelling the nested lists returned by
`matrix.getRotationMatrixFromAxisAngle`. -/
structure M3 where
  r0 : V3
  r1 : V3
  r2 : V3

/-- Identity matrix, modelling the literal `[[1, 0, 0], [0, 1, 0], [0, 0, 1]]`. -/
def midM3 : M3 := ⟨⟨1, 0, 0⟩, ⟨0, 1, 0⟩, ⟨0, 0, 1⟩⟩

/-- Matrix–vector product, modelling
`[m[j][0]*v[0] + m[j][1]*v[1] + m[j][2]*v[2] for j in range(3)]`. -/
def mulVec (m : M3) (v : V3) : V3 := ⟨vdot m.r0 v, vdot m.r1 v, vdot m.r2 v⟩

/-- Python division: `a / b` raises `ZeroDivisionError` when `b = 0`. -/
noncomputable def pyDiv (a b : ℝ) : Option ℝ := if b = 0 then none else some (a / b)

@[simp] lemma vmag_vzero : vmag vzero = 0 := by
  simp [vmag, vzero]

lemma getD_range_map {α : Type _} (f : ℕ → α) (N n : ℕ) (d : α) (h : n < N) :
    ((List.range N).map f).getD n d = f n := by
  rw [List.getD_eq_getElem?_getD]
  rw [List.getElem?_map]
  rw [List.getElem?_range h]
  rfl

lemma getD_range_map_ge {α : Type _} (f : ℕ → α) (N n : ℕ) (d : α) (h : N ≤ n) :
    ((List.range N).map f).getD n d = d := by
  rw [List.getD_eq_getElem?_getD]
  rw [List.getElem?_eq_none (by simpa using h)]
  rfl

/-! ## Wall offset and inner-surface circumferential curvature

Shallow embedding of `getOuterCoordinatesAndCurvatureFromInner`
(tubemesh.py lines 427-461).  The external curvature primitive
`interp.getCubicHermiteCurvatureSimple` is a parameter `kappa`; all list reads
use `getD` with a zero default, modelling in-range indexing.  The Python double
loop over `n2 in range(elementsCountAlong + 1)` and `n1 in
range(elementsCountAround)` appends at flat index `n = n2*elementsCountAround
+ n1`, so it is written as a single map over that flat index with
`n2 = n / elementsCountAround` and `n1 = n % elementsCountAround`. -/

/-- Body of the loop of `getOuterCoordinatesAndCurvatureFromInner` at flat
index `n`: the offset outer point and the circumferential curvature. -/
def outerRow (kappa : V3 → V3 → V3 → V3 → ℝ → ℝ)
    (xInner d1Inner d3Inner : List V3) (wallThickness : ℝ)
    (elementsCountAround : ℕ) (transitElementList : List Bool)
    (n : ℕ) : V3 × ℝ :=
  let n2 := n / elementsCountAround
  let n1 := n % elementsCountAround
  let x := vadd (xInner.getD n vzero) (vsmul wallThickness (d3Inner.getD n vzero))
  let prevIdx := if n1 ≠ 0 then n - 1 else (n2 + 1) * elementsCountAround - 1
  let nextIdx := if n1 < elementsCountAround - 1 then n + 1 else n2 * elementsCountAround
  let kappam := kappa (xInner.getD prevIdx vzero) (d1Inner.getD prevIdx vzero)
      (xInner.getD n vzero) (d1Inner.getD n vzero) 1
  let kappap := kappa (xInner.getD n vzero) (d1Inner.getD n vzero)
      (xInner.getD nextIdx vzero) (d1Inner.getD nextIdx vzero) 0
  -- Python `(n1-1) % elementsCountAround` on ints equals
  -- `(n1 + elementsCountAround - 1) % elementsCountAround` for `n1 < elementsCountAround`.
  let prev1 := (n1 + elementsCountAround - 1) % elementsCountAround
  let curvatureAround :=
    if transitElementList.getD n1 false = false ∧ transitElementList.getD prev1 false = false then
      0.5 * (kappam + kappap)
    else if transitElementList.getD n1 false then kappam
    else kappap
  (x, curvatureAround)

/-- Embedding of `getOuterCoordinatesAndCurvatureFromInner`: returns
`(xOuter, curvatureInner)`. -/
def getOuterCoordinatesAndCurvatureFromInner (kappa : V3 → V3 → V3 → V3 → ℝ → ℝ)
    (xInner d1Inner d3Inner : List V3) (wallThickness : ℝ)
    (elementsCountAlong elementsCountAround : ℕ)
    (transitElementList : List Bool) : List V3 × List ℝ :=
  let rows := (List.range ((elementsCountAlong + 1) * elementsCountAround)).map
    (outerRow kappa xInner d1Inner d3Inner wallThickness elementsCountAround transitElementList)
  (rows.map Prod.fst, rows.map Prod.snd)

/-! ## Through-wall interpolation

Shallow embedding of `interpolatefromInnerAndOuter` (tubemesh.py lines
463-515) and of the through-wall layer loop of `generatetubemesh` (lines
211-219). -/

/-- Modelled from the spec: the external primitive
`interp.interpolateCubicHermite` (not under `src/`), the standard cubic
Hermite interpolation between two points with end tangents, used by the
Wall Offset and Through-Wall Interpolator for the position blend. -/
def interpolateCubicHermite (v1 d1 v2 d2 : V3) (xi : ℝ) : V3 :=
  let xi2 := xi * xi
  let xi3 := xi2 * xi
  let f1 := 1 - 3 * xi2 + 2 * xi3
  let f2 := xi - 2 * xi2 + xi3
  let f3 := 3 * xi2 - 2 * xi3
  let f4 := -xi2 + xi3
  vadd (vadd (vsmul f1 v1) (vsmul f2 d1)) (vadd (vsmul f3 v2) (vsmul f4 d2))

/-- Loop body of `interpolatefromInnerAndOuter` at flat index
`n = n2*elementsCountAround + n1`: the tuple
`(x, dx_ds1, dx_ds2, dx_ds3, factor)` appended to the five output lists.
The division `thickness/elementsCountThroughWall` for `dx_ds3` is guarded at
the caller (`interpolatefromInnerAndOuter`), which fails like Python when
`elementsCountThroughWall = 0`. -/
noncomputable def interpElem (xInner xOuter : List V3) (thickness xi3 : ℝ)
    (sx : List V3) (curvatureInner curvatureAlong : List ℝ)
    (d1Inner d2Inner d3InnerUnit : List V3)
    (elementsCountAround elementsCountThroughWall : ℕ) (n : ℕ) :
    V3 × V3 × V3 × V3 × ℝ :=
  let n2 := n / elementsCountAround
  let norm := d3InnerUnit.getD n vzero
  let innerx := xInner.getD n vzero
  let outerx := xOuter.getD n vzero
  let dWall := vsmul thickness norm
  let x := interpolateCubicHermite innerx dWall outerx dWall xi3
  let factor1 := 1 + thickness * xi3 * curvatureInner.getD n 0
  let dx_ds1 := vsmul factor1 (d1Inner.getD n vzero)
  let curvature := curvatureAlong.getD n 0
  let distance := vmag (vsub x (sx.getD n2 vzero))
  let factor2 := 1 + curvature * distance
  let dx_ds2 := vsmul factor2 (d2Inner.getD n vzero)
  let dx_ds3 := vsmul (thickness / elementsCountThroughWall) norm
  (x, dx_ds1, dx_ds2, dx_ds3, factor2)

/-- Option-valued traversal: `some` of the list of results when every element
computation succeeds, `none` as soon as one fails.  Models a Python loop whose
body can raise. -/
def optMap {α β : Type _} (f : α → Option β) : List α → Option (List β)
  | [] => some []
  | a :: as => (f a).bind fun b => (optMap f as).map fun bs => b :: bs

lemma optMap_eq_map {α β : Type _} (f : α → Option β) (g : α → β) (l : List α)
    (h : ∀ a ∈ l, f a = some (g a)) : optMap f l = some (l.map g) := by
  induction l with
  | nil => rfl
  | cons a as ih =>
      have ha := h a (List.mem_cons_self a as)
      have has : ∀ b ∈ as, f b = some (g b) := fun b hb => h b (List.mem_cons_of_mem a hb)
      simp [optMap, ha, ih has]

/-- Five parallel output lists from the list of per-node tuples, modelling the
five `append`s of the Python loop. -/
def unzipRows (rows : List (V3 × V3 × V3 × V3 × ℝ)) :
    List V3 × List V3 × List V3 × List V3 × List ℝ :=
  (rows.map (fun r => r.1), rows.map (fun r => r.2.1), rows.map (fun r => r.2.2.1),
   rows.map (fun r => r.2.2.2.1), rows.map (fun r => r.2.2.2.2))

/-- Embedding of `interpolatefromInnerAndOuter`: returns
`some (xList, dx_ds1List, dx_ds2List, dx_ds3List, factorList)`, or `none` when
a loop iteration executes the division by `elementsCountThroughWall = 0`
(Python `ZeroDivisionError` at `dx_ds3`). -/
noncomputable def interpolatefromInnerAndOuter (xInner xOuter : List V3)
    (thickness xi3 : ℝ) (sx : List V3) (curvatureInner curvatureAlong : List ℝ)
    (d1Inner d2Inner d3InnerUnit : List V3)
    (elementsCountAround elementsCountAlong elementsCountThroughWall : ℕ) :
    Option (List V3 × List V3 × List V3 × List V3 × List ℝ) :=
  (optMap (fun n =>
      if elementsCountThroughWall = 0 then none
      else some (interpElem xInner xOuter thickness xi3 sx curvatureInner curvatureAlong
        d1Inner d2Inner d3InnerUnit elementsCountAround elementsCountThroughWall n))
    (List.range ((elementsCountAlong + 1) * elementsCountAround))).map unzipRows

lemma interpolatefromInnerAndOuter_eq_some (xInner xOuter : List V3)
    (thickness xi3 : ℝ) (sx : List V3) (curvatureInner curvatureAlong : List ℝ)
    (d1Inner d2Inner d3InnerUnit : List V3)
    (elementsCountAround elementsCountAlong elementsCountThroughWall : ℕ)
    (hw : elementsCountThroughWall ≠ 0) :
    interpolatefromInnerAndOuter xInner xOuter thickness xi3 sx curvatureInner curvatureAlong
      d1Inner d2Inner d3InnerUnit elementsCountAround elementsCountAlong elementsCountThroughWall
    = some (unzipRows ((List.range ((elementsCountAlong + 1) * elementsCountAround)).map
        (interpElem xInner xOuter thickness xi3 sx curvatureInner curvatureAlong
          d1Inner d2Inner d3InnerUnit elementsCountAround elementsCountThroughWall))) := by
  unfold interpolatefromInnerAndOuter
  rw [optMap_eq_map _ (interpElem xInner xOuter thickness xi3 sx curvatureInner curvatureAlong
      d1Inner d2Inner d3InnerUnit elementsCountAround elementsCountThroughWall)]
  · rfl
  · intro a _
    simp [hw]

/-- Embedding of the through-wall layer loop of `generatetubemesh` (lines
211-219).  Each layer `n3` first computes `xi3 = 1/elementsCountThroughWall *
n3` (Python raises `ZeroDivisionError` when the wall count is zero) and then
calls `interpolatefromInnerAndOuter`.  The four coordinate/derivative lists
are concatenated across layers (`xList = xList + x` etc.), while `factorList`
is reassigned on every iteration, so the returned `factorList` is the one from
the last layer only. -/
noncomputable def throughWallLayers (xInnerList xOuterList : List V3)
    (wallThickness : ℝ) (sx : List V3) (curvatureInner curvatureAlong : List ℝ)
    (d1InnerList smoothd2InnerList d3InnerUnitList : List V3)
    (elementsCountAround elementsCountAlong elementsCountThroughWall : ℕ) :
    Option (List V3 × List V3 × List V3 × List V3 × List ℝ) :=
  (optMap (fun n3 : ℕ =>
      (pyDiv 1 elementsCountThroughWall).bind fun step =>
        interpolatefromInnerAndOuter xInnerList xOuterList wallThickness (step * (n3 : ℝ)) sx
          curvatureInner curvatureAlong d1InnerList smoothd2InnerList d3InnerUnitList
          elementsCountAround elementsCountAlong elementsCountThroughWall)
    (List.range (elementsCountThroughWall + 1))).map fun layers =>
    ((layers.map (fun r => r.1)).flatten, (layers.map (fun r => r.2.1)).flatten,
     (layers.map (fun r => r.2.2.1)).flatten, (layers.map (fun r => r.2.2.2.1)).flatten,
     (layers.getLastD ([], [], [], [], [])).2.2.2.2)

/-! ## Helper lemmas for flat indexing -/

lemma flat_div_mod (n2 n1 around : ℕ) (h1 : n1 < around) :
    (n2 * around + n1) / around = n2 ∧ (n2 * around + n1) % around = n1 := by
  have hpos : 0 < around := Nat.lt_of_le_of_lt (Nat.zero_le n1) h1
  constructor
  · rw [Nat.mul_comm, Nat.mul_add_div hpos, Nat.div_eq_of_lt h1]
    omega
  · rw [Nat.mul_comm, Nat.mul_add_mod, Nat.mod_eq_of_lt h1]

lemma flat_lt (n2 n1 along around : ℕ) (h2 : n2 < along + 1) (h1 : n1 < around) :
    n2 * around + n1 < (along + 1) * around := by
  calc n2 * around + n1 < n2 * around + around := Nat.add_lt_add_left h1 _
  _ = (n2 + 1) * around := by ring
  _ ≤ (along + 1) * around := Nat.mul_le_mul_right _ h2

/-- One-sided circumferential Hermite curvature from the previous angular
neighbour (`kappam` at tubemesh.py line 450, with `prevIdx` from line 447). -/
def kappamAt (kappa : V3 → V3 → V3 → V3 → ℝ → ℝ) (xInner d1Inner : List V3)
    (around n2 n1 : ℕ) : ℝ :=
  let n := n2 * around + n1
  let prevIdx := if n1 ≠ 0 then n - 1 else (n2 + 1) * around - 1
  kappa (xInner.getD prevIdx vzero) (d1Inner.getD prevIdx vzero)
    (xInner.getD n vzero) (d1Inner.getD n vzero) 1

/-- One-sided circumferential Hermite curvature from the next angular
neighbour (`kappap` at tubemesh.py line 451, with `nextIdx` from line 448). -/
def kappapAt (kappa : V3 → V3 → V3 → V3 → ℝ → ℝ) (xInner d1Inner : List V3)
    (around n2 n1 : ℕ) : ℝ :=
  let n := n2 * around + n1
  let nextIdx := if n1 < around - 1 then n + 1 else n2 * around
  kappa (xInner.getD n vzero) (d1Inner.getD n vzero)
    (xInner.getD nextIdx vzero) (d1Inner.getD nextIdx vzero) 0

/-- Claim C1: for every vertex (station `n2`, angular index `n1`, flat index
`n = n2*elementsCountAround + n1`), the outer-surface position computed by
`getOuterCoordinatesAndCurvatureFromInner` equals the inner position plus the
through-wall normal scaled by `wallThickness`:
`x[i] = xInner[n][i] + d3Inner[n][i]*wallThickness` componentwise. -/
theorem claim1_outer_offset (kappa : V3 → V3 → V3 → V3 → ℝ → ℝ)
    (xInner d1Inner d3Inner : List V3) (wallThickness : ℝ)
    (elementsCountAlong elementsCountAround : ℕ) (transitElementList : List Bool)
    (n : ℕ) (h : n < (elementsCountAlong + 1) * elementsCountAround) :
    (getOuterCoordinatesAndCurvatureFromInner kappa xInner d1Inner d3Inner wallThickness
        elementsCountAlong elementsCountAround transitElementList).1.getD n vzero
      = vadd (xInner.getD n vzero) (vsmul wallThickness (d3Inner.getD n vzero)) := by
  simp only [getOuterCoordinatesAndCurvatureFromInner, List.map_map]
  rw [getD_range_map _ _ _ _ h]
  rfl

/-- Witness for claim C1 at a concrete input: one station, one angular index,
inner point `(1,2,3)`, unit normal `(1,0,0)`, wall thickness `2`. -/
theorem claim1_outer_offset_witness :
    (0 : ℕ) < (0 + 1) * 1 ∧
    (getOuterCoordinatesAndCurvatureFromInner (fun _ _ _ _ _ => 0)
        [⟨1, 2, 3⟩] [vzero] [⟨1, 0, 0⟩] 2 0 1 [false]).1.getD 0 vzero = ⟨3, 2, 3⟩ := by
  refine ⟨by norm_num, ?_⟩
  have h := claim1_outer_offset (fun _ _ _ _ _ => 0) [⟨1, 2, 3⟩] [vzero] [⟨1, 0, 0⟩] 2 0 1
    [false] 0 (by norm_num)
  rw [h]
  norm_num [vadd, vsmul]

/-- Claim C4: circumferential curvature combination.  For every in-range
vertex, if neither the angular interval `n1` nor the previous interval
`(n1-1) mod elementsCountAround` is flagged as a transition, the curvature is
the symmetric average `0.5*(kappam + kappap)`; if exactly one of the two is
flagged, the curvature is the one-sided estimate from the non-transition side
(`kappam` when interval `n1` is flagged, `kappap` when the previous interval
is flagged). -/
theorem claim4_transition_curvature (kappa : V3 → V3 → V3 → V3 → ℝ → ℝ)
    (xInner d1Inner d3Inner : List V3) (wallThickness : ℝ)
    (elementsCountAlong elementsCountAround : ℕ) (transitElementList : List Bool)
    (n2 n1 : ℕ) (h2 : n2 < elementsCountAlong + 1) (h1 : n1 < elementsCountAround) :
    (transitElementList.getD n1 false = false →
      transitElementList.getD ((n1 + elementsCountAround - 1) % elementsCountAround) false = false →
      (getOuterCoordinatesAndCurvatureFromInner kappa xInner d1Inner d3Inner wallThickness
          elementsCountAlong elementsCountAround transitElementList).2.getD
          (n2 * elementsCountAround + n1) 0
        = 0.5 * (kappamAt kappa xInner d1Inner elementsCountAround n2 n1
            + kappapAt kappa xInner d1Inner elementsCountAround n2 n1))
    ∧ (transitElementList.getD n1 false = true →
      transitElementList.getD ((n1 + elementsCountAround - 1) % elementsCountAround) false = false →
      (getOuterCoordinatesAndCurvatureFromInner kappa xInner d1Inner d3Inner wallThickness
          elementsCountAlong elementsCountAround transitElementList).2.getD
          (n2 * elementsCountAround + n1) 0
        = kappamAt kappa xInner d1Inner elementsCountAround n2 n1)
    ∧ (transitElementList.getD n1 false = false →
      transitElementList.getD ((n1 + elementsCountAround - 1) % elementsCountAround) false = true →
      (getOuterCoordinatesAndCurvatureFromInner kappa xInner d1Inner d3Inner wallThickness
          elementsCountAlong elementsCountAround transitElementList).2.getD
          (n2 * elementsCountAround + n1) 0
        = kappapAt kappa xInner d1Inner elementsCountAround n2 n1) := by
  have hn := flat_lt n2 n1 elementsCountAlong elementsCountAround h2 h1
  have hdm := flat_div_mod n2 n1 elementsCountAround h1
  have key : (getOuterCoordinatesAndCurvatureFromInner kappa xInner d1Inner d3Inner wallThickness
      elementsCountAlong elementsCountAround transitElementList).2.getD
      (n2 * elementsCountAround + n1) 0
      = (outerRow kappa xInner d1Inner d3Inner wallThickness elementsCountAround
          transitElementList (n2 * elementsCountAround + n1)).2 := by
    simp only [getOuterCoordinatesAndCurvatureFromInner, List.map_map]
    rw [getD_range_map _ _ _ _ hn]
    rfl
  refine ⟨fun ha hb => ?_, fun ha hb => ?_, fun ha hb => ?_⟩ <;>
    · rw [key]
      unfold outerRow
      simp only [hdm.1, hdm.2, ha, hb]
      simp [kappamAt, kappapAt]

/-- Witness for claim C4 at a concrete input: two angular indices, no
transitions, curvature primitive returning its evaluation parameter, so the
symmetric average is `0.5*(1 + 0)`. -/
theorem claim4_transition_curvature_witness :
    ((0 : ℕ) < 0 + 1 ∧ (0 : ℕ) < 2 ∧
      ([false, false] : List Bool).getD 0 false = false ∧
      ([false, false] : List Bool).getD ((0 + 2 - 1) % 2) false = false) ∧
    (getOuterCoordinatesAndCurvatureFromInner (fun _ _ _ _ t => t)
        [vzero, vzero] [vzero, vzero] [vzero, vzero] 0 0 2 [false, false]).2.getD
        (0 * 2 + 0) 0 = 0.5 * (1 + 0) := by
  refine ⟨⟨by norm_num, by norm_num, by simp, by simp⟩, ?_⟩
  have h := (claim4_transition_curvature (fun _ _ _ _ t => t)
    [vzero, vzero] [vzero, vzero] [vzero, vzero] 0 0 2 [false, false] 0 0
    (by norm_num) (by norm_num)).1 (by simp) (by simp)
  rw [h]
  simp [kappamAt, kappapAt]

@[simp] lemma vsmul_one (a : V3) : vsmul 1 a = a := by
  simp [vsmul]

@[simp] lemma vsmul_zero (a : V3) : vsmul 0 a = vzero := by
  simp [vsmul, vzero]

/-- Cubic Hermite interpolation between a point and itself with zero end
tangents is constant: the basis functions satisfy `f1 + f3 = 1`. -/
lemma interpolateCubicHermite_const (v : V3) (xi : ℝ) :
    interpolateCubicHermite v vzero v vzero xi = v := by
  unfold interpolateCubicHermite
  ext <;> simp [vadd, vsmul, vzero] <;> ring

lemma vmag_unitx : vmag ⟨1, 0, 0⟩ = 1 := by
  have : (1 : ℝ) * 1 + 0 * 0 + 0 * 0 = 1 := by norm_num
  rw [vmag, this, Real.sqrt_one]

/-- Counterexample to claim C2: with `wallThickness = 0`, one vertex at
`(1,0,0)`, centre-line sample at the origin and longitudinal curvature `1`,
the longitudinal scale factor computed by `interpolatefromInnerAndOuter` is
`1 + 1·‖(1,0,0) − 0‖ = 2`, not `1`: the longitudinal factor depends on the
distance from the vertex to the central line, which does not vanish with the
wall thickness. -/
theorem claim2_counterexample :
    Option.map (fun r => r.2.2.2.2.getD 0 0)
      (interpolatefromInnerAndOuter [⟨1, 0, 0⟩] [⟨1, 0, 0⟩] 0 (1/2) [vzero] [0] [1]
        [⟨0, 1, 0⟩] [⟨0, 0, 1⟩] [⟨1, 0, 0⟩] 1 0 1) = some 2 ∧ (2 : ℝ) ≠ 1 := by
  refine ⟨?_, by norm_num⟩
  rw [interpolatefromInnerAndOuter_eq_some _ _ _ _ _ _ _ _ _ _ _ _ _ one_ne_zero]
  simp only [Option.map_some', unzipRows, List.map_map]
  rw [getD_range_map _ _ _ _ (by norm_num : (0 : ℕ) < (0 + 1) * 1)]
  simp only [Function.comp_apply]
  unfold interpElem
  simp only [vsmul_zero, List.getD_cons_zero, Nat.zero_div]
  rw [interpolateCubicHermite_const]
  have hsub : vsub ⟨1, 0, 0⟩ vzero = ⟨1, 0, 0⟩ := by simp [vsub, vzero]
  rw [hsub, vmag_unitx]
  norm_num

/-- Claim C2 as amended: when `wallThickness = 0` (so that the outer point
coincides with the inner point), the circumferential scale factor equals
exactly `1` at every vertex and every `xi3` (so `dx_ds1` equals the inner
circumferential derivative unchanged), while the longitudinal scale factor
equals `1 + curvatureAlong[n] * ‖xInner[n] - sx[n2]‖`, which is `1` only where
the longitudinal curvature or the offset from the central line vanishes. -/
theorem claim2_amended_scale_factors (xInner xOuter : List V3) (xi3 : ℝ)
    (sx : List V3) (curvatureInner curvatureAlong : List ℝ)
    (d1Inner d2Inner d3InnerUnit : List V3)
    (elementsCountAround elementsCountAlong elementsCountThroughWall : ℕ) (n2 n1 : ℕ)
    (h2 : n2 < elementsCountAlong + 1) (h1 : n1 < elementsCountAround)
    (hw : elementsCountThroughWall ≠ 0)
    (houter : xOuter.getD (n2 * elementsCountAround + n1) vzero
      = xInner.getD (n2 * elementsCountAround + n1) vzero) :
    Option.map (fun r => r.2.1.getD (n2 * elementsCountAround + n1) vzero)
      (interpolatefromInnerAndOuter xInner xOuter 0 xi3 sx curvatureInner curvatureAlong
        d1Inner d2Inner d3InnerUnit elementsCountAround elementsCountAlong
        elementsCountThroughWall)
      = some (d1Inner.getD (n2 * elementsCountAround + n1) vzero)
    ∧ Option.map (fun r => r.2.2.2.2.getD (n2 * elementsCountAround + n1) 0)
      (interpolatefromInnerAndOuter xInner xOuter 0 xi3 sx curvatureInner curvatureAlong
        d1Inner d2Inner d3InnerUnit elementsCountAround elementsCountAlong
        elementsCountThroughWall)
      = some (1 + curvatureAlong.getD (n2 * elementsCountAround + n1) 0
          * vmag (vsub (xInner.getD (n2 * elementsCountAround + n1) vzero)
              (sx.getD n2 vzero))) := by
  have hn := flat_lt n2 n1 elementsCountAlong elementsCountAround h2 h1
  have hdm := flat_div_mod n2 n1 elementsCountAround h1
  rw [interpolatefromInnerAndOuter_eq_some _ _ _ _ _ _ _ _ _ _ _ _ _ hw]
  simp only [Option.map_some']
  constructor
  · simp only [unzipRows, List.map_map]
    rw [getD_range_map _ _ _ _ hn]
    simp only [Function.comp_apply]
    unfold interpElem
    simp
  · simp only [unzipRows, List.map_map]
    rw [getD_range_map _ _ _ _ hn]
    simp only [Function.comp_apply]
    unfold interpElem
    simp only [hdm.1, vsmul_zero, houter]
    rw [interpolateCubicHermite_const]

/-- Witness for the amended claim C2 at a concrete input: one vertex at
`(1,0,0)`, centre line at the origin, longitudinal curvature `1`: the
circumferential derivative is returned unchanged and the longitudinal factor
evaluates to `1 + 1·1 = 2`. -/
theorem claim2_amended_scale_factors_witness :
    ((0 : ℕ) < 0 + 1 ∧ (0 : ℕ) < 1 ∧ (1 : ℕ) ≠ 0 ∧
      ([⟨1, 0, 0⟩] : List V3).getD (0 * 1 + 0) vzero
        = ([⟨1, 0, 0⟩] : List V3).getD (0 * 1 + 0) vzero) ∧
    Option.map (fun r => r.2.1.getD 0 vzero)
      (interpolatefromInnerAndOuter [⟨1, 0, 0⟩] [⟨1, 0, 0⟩] 0 (1/3) [vzero] [0] [1]
        [⟨0, 1, 0⟩] [⟨0, 0, 1⟩] [⟨1, 0, 0⟩] 1 0 1) = some ⟨0, 1, 0⟩ ∧
    Option.map (fun r => r.2.2.2.2.getD 0 0)
      (interpolatefromInnerAndOuter [⟨1, 0, 0⟩] [⟨1, 0, 0⟩] 0 (1/3) [vzero] [0] [1]
        [⟨0, 1, 0⟩] [⟨0, 0, 1⟩] [⟨1, 0, 0⟩] 1 0 1) = some 2 := by
  refine ⟨⟨by norm_num, by norm_num, by norm_num, rfl⟩, ?_, ?_⟩
  · have h := (claim2_amended_scale_factors [⟨1, 0, 0⟩] [⟨1, 0, 0⟩] (1/3) [vzero] [0] [1]
      [⟨0, 1, 0⟩] [⟨0, 0, 1⟩] [⟨1, 0, 0⟩] 1 0 1 0 0 (by norm_num) (by norm_num)
      (by norm_num) rfl).1
    simpa using h
  · have h := (claim2_amended_scale_factors [⟨1, 0, 0⟩] [⟨1, 0, 0⟩] (1/3) [vzero] [0] [1]
      [⟨0, 1, 0⟩] [⟨0, 0, 1⟩] [⟨1, 0, 0⟩] 1 0 1 0 0 (by norm_num) (by norm_num)
      (by norm_num) rfl).2
    have hsub : vsub (⟨1, 0, 0⟩ : V3) vzero = ⟨1, 0, 0⟩ := by simp [vsub, vzero]
    rw [h]
    have hidx : (0 * 1 + 0 : ℕ) = 0 := by norm_num
    rw [hidx]
    simp only [List.getD_cons_zero]
    rw [hsub, vmag_unitx]
    norm_num

/-! ## Shape of the through-wall loop output -/

/-- Rows of one through-wall layer `n3`: the per-node tuples produced by
`interpolatefromInnerAndOuter` at `xi3 = 1/elementsCountThroughWall * n3`. -/
noncomputable def layerRows (xInnerList xOuterList : List V3) (wallThickness : ℝ)
    (sx : List V3) (curvatureInner curvatureAlong : List ℝ)
    (d1InnerList smoothd2InnerList d3InnerUnitList : List V3)
    (elementsCountAround elementsCountAlong elementsCountThroughWall : ℕ)
    (n3 : ℕ) : List (V3 × V3 × V3 × V3 × ℝ) :=
  (List.range ((elementsCountAlong + 1) * elementsCountAround)).map
    (interpElem xInnerList xOuterList wallThickness
      (((1 : ℝ) / (elementsCountThroughWall : ℝ)) * (n3 : ℝ)) sx
      curvatureInner curvatureAlong d1InnerList smoothd2InnerList d3InnerUnitList
      elementsCountAround elementsCountThroughWall)

lemma throughWallLayers_eq_some (xInnerList xOuterList : List V3) (wallThickness : ℝ)
    (sx : List V3) (curvatureInner curvatureAlong : List ℝ)
    (d1InnerList smoothd2InnerList d3InnerUnitList : List V3)
    (elementsCountAround elementsCountAlong elementsCountThroughWall : ℕ)
    (hw : elementsCountThroughWall ≠ 0) :
    throughWallLayers xInnerList xOuterList wallThickness sx curvatureInner curvatureAlong
        d1InnerList smoothd2InnerList d3InnerUnitList elementsCountAround elementsCountAlong
        elementsCountThroughWall
      = some (
        let layers := (List.range (elementsCountThroughWall + 1)).map fun n3 =>
          unzipRows (layerRows xInnerList xOuterList wallThickness sx curvatureInner
            curvatureAlong d1InnerList smoothd2InnerList d3InnerUnitList
            elementsCountAround elementsCountAlong elementsCountThroughWall n3)
        ((layers.map (fun r => r.1)).flatten, (layers.map (fun r => r.2.1)).flatten,
         (layers.map (fun r => r.2.2.1)).flatten, (layers.map (fun r => r.2.2.2.1)).flatten,
         (layers.getLastD ([], [], [], [], [])).2.2.2.2)) := by
  have hwR : (elementsCountThroughWall : ℝ) ≠ 0 := Nat.cast_ne_zero.mpr hw
  unfold throughWallLayers
  rw [optMap_eq_map _ (fun n3 =>
      unzipRows (layerRows xInnerList xOuterList wallThickness sx curvatureInner
        curvatureAlong d1InnerList smoothd2InnerList d3InnerUnitList
        elementsCountAround elementsCountAlong elementsCountThroughWall n3))]
  · rfl
  · intro n3 _
    rw [show pyDiv 1 (elementsCountThroughWall : ℝ)
        = some ((1 : ℝ) / (elementsCountThroughWall : ℝ)) by simp [pyDiv, hwR]]
    rw [Option.some_bind]
    rw [interpolatefromInnerAndOuter_eq_some _ _ _ _ _ _ _ _ _ _ _ _ _ hw]
    rfl

lemma flatten_length_const {α : Type _} (g : ℕ → List α) (k N : ℕ)
    (h : ∀ i, (g i).length = N) :
    ((List.range k).map g).flatten.length = k * N := by
  induction k with
  | zero => simp
  | succ k ih =>
      rw [List.range_succ, List.map_append, List.flatten_append]
      simp only [List.length_append, ih]
      simp [h, Nat.succ_mul]

lemma getLastD_range_map {α : Type _} (f : ℕ → α) (k : ℕ) (d : α) :
    ((List.range (k + 1)).map f).getLastD d = f k := by
  rw [List.range_succ, List.map_append]
  simp

/-- Counterexample to claim C7: with `elementsCountThroughWall = 2`,
`elementsCountAlong = 0` and `elementsCountAround = 1`, the returned
`factorList` has length `1 = (elementsCountAlong+1)*elementsCountAround`
(the last layer only, since the loop reassigns `factorList` instead of
concatenating), while the per-vertex coordinate list `xList` has length
`3 = (elementsCountThroughWall+1)*(elementsCountAlong+1)*elementsCountAround`. -/
theorem claim7_counterexample :
    Option.map (fun r => r.2.2.2.2.length)
      (throughWallLayers [vzero] [vzero] 0 [vzero] [0] [0] [vzero] [vzero] [vzero] 1 0 2)
      = some 1
    ∧ Option.map (fun r => r.1.length)
      (throughWallLayers [vzero] [vzero] 0 [vzero] [0] [0] [vzero] [vzero] [vzero] 1 0 2)
      = some 3
    ∧ (1 : ℕ) ≠ (2 + 1) * (0 + 1) * 1 := by
  refine ⟨?_, ?_, by norm_num⟩
  · rw [throughWallLayers_eq_some _ _ _ _ _ _ _ _ _ _ _ _ (by norm_num)]
    simp only [Option.map_some']
    congr 1
  · rw [throughWallLayers_eq_some _ _ _ _ _ _ _ _ _ _ _ _ (by norm_num)]
    simp only [Option.map_some']
    congr 1

/-- Claim C7 as amended: for any nonzero wall element count, the `factorList`
returned by the through-wall loop contains one longitudinal-derivative scale
factor per (longitudinal station × angular index) pair of the *last*
through-wall layer only — its length is
`(elementsCountAlong+1)*elementsCountAround` — while the per-vertex output
arrays (here `xList` and `dx_ds2List`) have length
`(elementsCountThroughWall+1)*(elementsCountAlong+1)*elementsCountAround`. -/
theorem claim7_amended_factorList_length (xInnerList xOuterList : List V3)
    (wallThickness : ℝ) (sx : List V3) (curvatureInner curvatureAlong : List ℝ)
    (d1InnerList smoothd2InnerList d3InnerUnitList : List V3)
    (elementsCountAround elementsCountAlong elementsCountThroughWall : ℕ)
    (hw : elementsCountThroughWall ≠ 0) :
    Option.map (fun r => r.2.2.2.2.length)
      (throughWallLayers xInnerList xOuterList wallThickness sx curvatureInner curvatureAlong
        d1InnerList smoothd2InnerList d3InnerUnitList elementsCountAround elementsCountAlong
        elementsCountThroughWall)
      = some ((elementsCountAlong + 1) * elementsCountAround)
    ∧ Option.map (fun r => r.1.length)
      (throughWallLayers xInnerList xOuterList wallThickness sx curvatureInner curvatureAlong
        d1InnerList smoothd2InnerList d3InnerUnitList elementsCountAround elementsCountAlong
        elementsCountThroughWall)
      = some ((elementsCountThroughWall + 1) * ((elementsCountAlong + 1) * elementsCountAround))
    ∧ Option.map (fun r => r.2.2.1.length)
      (throughWallLayers xInnerList xOuterList wallThickness sx curvatureInner curvatureAlong
        d1InnerList smoothd2InnerList d3InnerUnitList elementsCountAround elementsCountAlong
        elementsCountThroughWall)
      = some ((elementsCountThroughWall + 1) * ((elementsCountAlong + 1) * elementsCountAround)) := by
  rw [throughWallLayers_eq_some _ _ _ _ _ _ _ _ _ _ _ _ hw]
  simp only [Option.map_some']
  refine ⟨?_, ?_, ?_⟩
  · congr 1
    obtain ⟨k, hk⟩ : ∃ k, elementsCountThroughWall = k + 1 :=
      ⟨elementsCountThroughWall - 1, by omega⟩
    rw [hk]
    rw [getLastD_range_map]
    simp [unzipRows, layerRows]
  · congr 1
    rw [List.map_map]
    rw [flatten_length_const _ _ ((elementsCountAlong + 1) * elementsCountAround)
      (fun i => by simp [unzipRows, layerRows, Function.comp])]
  · congr 1
    rw [List.map_map]
    rw [flatten_length_const _ _ ((elementsCountAlong + 1) * elementsCountAround)
      (fun i => by simp [unzipRows, layerRows, Function.comp])]

/-- Witness for the amended claim C7 at a concrete input
(`elementsCountThroughWall = 2`, one station, one angular index). -/
theorem claim7_amended_factorList_length_witness :
    (2 : ℕ) ≠ 0 ∧
    Option.map (fun r => r.2.2.2.2.length)
      (throughWallLayers [vzero] [vzero] 0 [vzero] [0] [0] [vzero] [vzero] [vzero] 1 0 2)
      = some 1 ∧
    Option.map (fun r => r.1.length)
      (throughWallLayers [vzero] [vzero] 0 [vzero] [0] [0] [vzero] [vzero] [vzero] 1 0 2)
      = some 3 := by
  have h := claim7_amended_factorList_length [vzero] [vzero] 0 [vzero] [0] [0]
    [vzero] [vzero] [vzero] 1 0 2 (by norm_num)
  exact ⟨by norm_num, by simpa using h.1, by simpa using h.2.1⟩

/-! ## Divisions by `elementsCountThroughWall` (claim C10)

Embeddings of the remaining nodal-value computations of `generatetubemesh`
that divide by `elementsCountThroughWall`: the texture-coordinate value
(lines 313-316) and the flat-coordinate value (lines 381-384). -/

/-- Embedding of the texture-coordinate nodal value
`u = [uList[n1], 1/elementsCountAlong*n2, 1/elementsCountThroughWall*n3]`
with Python division. -/
noncomputable def textureVertexValue (uList : List ℝ)
    (elementsCountAlong elementsCountThroughWall : ℕ) (n1 n2 n3 : ℕ) : Option V3 :=
  (pyDiv 1 elementsCountAlong).bind fun a =>
    (pyDiv 1 elementsCountThroughWall).map fun w =>
      ⟨uList.getD n1 0, a * n2, w * n3⟩

/-- Embedding of the flat-coordinate nodal value
`x = [uList[n1]*arcLengthOuterMidLength, totalLengthAlong/elementsCountAlong*n2,
wallThickness/elementsCountThroughWall*n3]` with Python division. -/
noncomputable def flatVertexValue (uList : List ℝ)
    (arcLengthOuterMidLength totalLengthAlong wallThickness : ℝ)
    (elementsCountAlong elementsCountThroughWall : ℕ) (n1 n2 n3 : ℕ) : Option V3 :=
  (pyDiv totalLengthAlong elementsCountAlong).bind fun a =>
    (pyDiv wallThickness elementsCountThroughWall).map fun w =>
      ⟨uList.getD n1 0 * arcLengthOuterMidLength, a * n2, w * n3⟩

/-- Claim C10: `generatetubemesh` requires `elementsCountThroughWall ≥ 1`.
When `elementsCountThroughWall = 0`, the through-wall fraction computation
`1/elementsCountThroughWall` (executed on the first layer iteration), and the
texture- and flat-coordinate nodal values that divide by
`elementsCountThroughWall`, all fail (Python `ZeroDivisionError`), modelled as
`none`; under the precondition `elementsCountThroughWall ≥ 1` (and the
always-true `elementsCountAlong ≥ 1` for the sibling division in the same
expressions) all of these computations are defined. -/
theorem claim10_wall_count_precondition (xInnerList xOuterList : List V3)
    (wallThickness : ℝ) (sx : List V3) (curvatureInner curvatureAlong : List ℝ)
    (d1InnerList smoothd2InnerList d3InnerUnitList : List V3)
    (elementsCountAround elementsCountAlong elementsCountThroughWall : ℕ)
    (uList : List ℝ) (arcLengthOuterMidLength totalLengthAlong : ℝ) (n1 n2 n3 : ℕ) :
    (elementsCountThroughWall = 0 →
      throughWallLayers xInnerList xOuterList wallThickness sx curvatureInner curvatureAlong
        d1InnerList smoothd2InnerList d3InnerUnitList elementsCountAround elementsCountAlong
        elementsCountThroughWall = none
      ∧ textureVertexValue uList elementsCountAlong elementsCountThroughWall n1 n2 n3 = none
      ∧ flatVertexValue uList arcLengthOuterMidLength totalLengthAlong wallThickness
          elementsCountAlong elementsCountThroughWall n1 n2 n3 = none)
    ∧ (elementsCountThroughWall ≠ 0 →
      (∃ r, throughWallLayers xInnerList xOuterList wallThickness sx curvatureInner
        curvatureAlong d1InnerList smoothd2InnerList d3InnerUnitList elementsCountAround
        elementsCountAlong elementsCountThroughWall = some r)
      ∧ (elementsCountAlong ≠ 0 →
        (∃ v, textureVertexValue uList elementsCountAlong elementsCountThroughWall n1 n2 n3
          = some v)
        ∧ (∃ v, flatVertexValue uList arcLengthOuterMidLength totalLengthAlong wallThickness
          elementsCountAlong elementsCountThroughWall n1 n2 n3 = some v))) := by
  constructor
  · intro hw
    subst hw
    refine ⟨?_, ?_, ?_⟩
    · unfold throughWallLayers
      simp [optMap, pyDiv, List.range_succ]
    · unfold textureVertexValue
      rcases eq_or_ne elementsCountAlong 0 with ha | ha
      · subst ha
        simp [pyDiv]
      · simp [pyDiv, Nat.cast_ne_zero.mpr ha]
    · unfold flatVertexValue
      rcases eq_or_ne elementsCountAlong 0 with ha | ha
      · subst ha
        simp [pyDiv]
      · simp [pyDiv, Nat.cast_ne_zero.mpr ha]
  · intro hw
    refine ⟨⟨_, throughWallLayers_eq_some _ _ _ _ _ _ _ _ _ _ _ _ hw⟩, fun ha => ⟨?_, ?_⟩⟩
    · have hval : textureVertexValue uList elementsCountAlong elementsCountThroughWall n1 n2 n3
          = some ⟨uList.getD n1 0, ((1 : ℝ) / (elementsCountAlong : ℝ)) * n2,
              ((1 : ℝ) / (elementsCountThroughWall : ℝ)) * n3⟩ := by
        unfold textureVertexValue
        rw [show pyDiv 1 (elementsCountAlong : ℝ)
            = some ((1 : ℝ) / (elementsCountAlong : ℝ)) by
          simp [pyDiv, Nat.cast_ne_zero.mpr ha]]
        rw [show pyDiv 1 (elementsCountThroughWall : ℝ)
            = some ((1 : ℝ) / (elementsCountThroughWall : ℝ)) by
          simp [pyDiv, Nat.cast_ne_zero.mpr hw]]
        rfl
      exact ⟨_, hval⟩
    · have hval : flatVertexValue uList arcLengthOuterMidLength totalLengthAlong wallThickness
          elementsCountAlong elementsCountThroughWall n1 n2 n3
          = some ⟨uList.getD n1 0 * arcLengthOuterMidLength,
              (totalLengthAlong / (elementsCountAlong : ℝ)) * n2,
              (wallThickness / (elementsCountThroughWall : ℝ)) * n3⟩ := by
        unfold flatVertexValue
        rw [show pyDiv totalLengthAlong (elementsCountAlong : ℝ)
            = some (totalLengthAlong / (elementsCountAlong : ℝ)) by
          simp [pyDiv, Nat.cast_ne_zero.mpr ha]]
        rw [show pyDiv wallThickness (elementsCountThroughWall : ℝ)
            = some (wallThickness / (elementsCountThroughWall : ℝ)) by
          simp [pyDiv, Nat.cast_ne_zero.mpr hw]]
        rfl
      exact ⟨_, hval⟩

/-- Witness for claim C10 at concrete inputs: with
`elementsCountThroughWall = 0` the through-wall loop and both auxiliary nodal
values fail; with `elementsCountThroughWall = 1` they are defined. -/
theorem claim10_wall_count_precondition_witness :
    (throughWallLayers [vzero] [vzero] 1 [vzero] [0] [0] [vzero] [vzero] [vzero] 1 1 0 = none
      ∧ textureVertexValue [0] 1 0 0 0 0 = none
      ∧ flatVertexValue [0] 1 1 1 1 0 0 0 0 = none)
    ∧ ((∃ r, throughWallLayers [vzero] [vzero] 1 [vzero] [0] [0] [vzero] [vzero] [vzero]
          1 1 1 = some r)
      ∧ (∃ v, textureVertexValue [0] 1 1 0 0 0 = some v)
      ∧ (∃ v, flatVertexValue [0] 1 1 1 1 1 0 0 0 = some v)) := by
  constructor
  · exact (claim10_wall_count_precondition [vzero] [vzero] 1 [vzero] [0] [0] [vzero] [vzero]
      [vzero] 1 1 0 [0] 1 1 0 0 0).1 rfl
  · have h := (claim10_wall_count_precondition [vzero] [vzero] 1 [vzero] [0] [0] [vzero]
      [vzero] [vzero] 1 1 1 [0] 1 1 0 0 0).2 (by norm_num)
    exact ⟨h.1, (h.2 (by norm_num)).1, (h.2 (by norm_num)).2⟩

/-! ## Derivative smoothing stage (tubemesh.py lines 183-195)

For each angular index `n1` the code gathers the longitudinal fiber of
positions `nx` and derivatives `nd2` from `xInnerList`/`d2InnerList`, calls
the external primitive `interp.smoothCubicHermiteDerivativesLine` on it, and
scatters the results into `smoothd2InnerList`.  The smoother is a parameter
`smoothLine`; `xInnerList` is never written by this stage. -/

/-- Longitudinal fiber of positions at angular index `n1`
(`nx.append(xInnerList[n])`, `n = n2*elementsCountAround + n1`). -/
def fiberPositions (xInnerList : List V3) (elementsCountAround elementsCountAlong n1 : ℕ) :
    List V3 :=
  (List.range (elementsCountAlong + 1)).map fun n2 =>
    xInnerList.getD (n2 * elementsCountAround + n1) vzero

/-- Longitudinal fiber of derivatives at angular index `n1`
(`nd2.append(d2InnerList[n])`). -/
def fiberDerivatives (d2InnerList : List V3) (elementsCountAround elementsCountAlong n1 : ℕ) :
    List V3 :=
  (List.range (elementsCountAlong + 1)).map fun n2 =>
    d2InnerList.getD (n2 * elementsCountAround + n1) vzero

/-- The derivative-smoothing stage: the state of `(xInnerList,
smoothd2InnerList)` after lines 183-195.  `smoothd2Raw[n1]` is the smoothed
fiber at angular index `n1`; `smoothd2InnerList` scatters
`smoothd2Raw[n1][n2]` back to flat order (lines 193-195). -/
def smoothStage (smoothLine : List V3 → List V3 → List V3)
    (xInnerList d2InnerList : List V3) (elementsCountAround elementsCountAlong : ℕ) :
    List V3 × List V3 :=
  let smoothd2Raw := (List.range elementsCountAround).map fun n1 =>
    smoothLine (fiberPositions xInnerList elementsCountAround elementsCountAlong n1)
      (fiberDerivatives d2InnerList elementsCountAround elementsCountAlong n1)
  let smoothd2InnerList := (List.range ((elementsCountAlong + 1) * elementsCountAround)).map
    fun n => (smoothd2Raw.getD (n % elementsCountAround) []).getD (n / elementsCountAround) vzero
  (xInnerList, smoothd2InnerList)

/-- Claim C5: the derivative-smoothing stage replaces only the longitudinal
derivatives.  For any smoothing primitive, the position list after the stage
is the very list it was given — in particular every angular fiber of positions
is unchanged — so smoothing changes derivatives, never positions. -/
theorem claim5_smoothing_preserves_positions
    (smoothLine : List V3 → List V3 → List V3) (xInnerList d2InnerList : List V3)
    (elementsCountAround elementsCountAlong : ℕ) :
    (smoothStage smoothLine xInnerList d2InnerList elementsCountAround elementsCountAlong).1
      = xInnerList
    ∧ ∀ n1, fiberPositions
        (smoothStage smoothLine xInnerList d2InnerList elementsCountAround elementsCountAlong).1
        elementsCountAround elementsCountAlong n1
      = fiberPositions xInnerList elementsCountAround elementsCountAlong n1 := by
  exact ⟨rfl, fun n1 => rfl⟩

/-- Witness for claim C5 at a concrete input: a smoother that overwrites every
derivative with a constant still leaves the position list untouched. -/
theorem claim5_smoothing_preserves_positions_witness :
    (smoothStage (fun _ _ => [⟨7, 7, 7⟩, ⟨7, 7, 7⟩]) [⟨1, 0, 0⟩, ⟨0, 1, 0⟩]
        [⟨0, 0, 1⟩, ⟨0, 0, 2⟩] 1 1).1 = [⟨1, 0, 0⟩, ⟨0, 1, 0⟩] := by
  exact (claim5_smoothing_preserves_positions (fun _ _ => [⟨7, 7, 7⟩, ⟨7, 7, 7⟩])
    [⟨1, 0, 0⟩, ⟨0, 1, 0⟩] [⟨0, 0, 1⟩, ⟨0, 0, 2⟩] 1 1).1

/-! ## Secondary rotation R2 (tubemesh.py lines 160-168) -/

/-- Computation of `rotFrame2`, the secondary in-plane rotation of the frame
aligner: the rotation about the unit tangent aligning the first profile point
with the projected cross direction, or the identity matrix when the two
alignment vectors are parallel (`magnitude(cp2) = 0`).  The external rotation
matrix constructor and `math.acos` are parameters. -/
noncomputable def computeRotFrame2 (rotM : V3 → ℝ → M3) (acos : ℝ → ℝ)
    (newVector firstVector unitTangent : V3) : M3 :=
  let thetaRot2 := acos (vdot (vnorm newVector) firstVector)
  let cp2 := vcross (vnorm newVector) firstVector
  if 0 < vmag cp2 then
    let cp2n := vnorm cp2
    let signThetaRot2 := vdot unitTangent cp2n
    rotM unitTangent (-signThetaRot2 * thetaRot2)
  else
    midM3

/-- Claim C6: when the two in-plane alignment vectors for the secondary
rotation R2 are parallel — their cross product has zero magnitude — R2 is the
identity rotation, for any rotation-matrix primitive and any `acos`; the
fallback is total and deterministic, no error is raised. -/
theorem claim6_parallel_rotFrame2_identity (rotM : V3 → ℝ → M3) (acos : ℝ → ℝ)
    (newVector firstVector unitTangent : V3)
    (h : vmag (vcross (vnorm newVector) firstVector) = 0) :
    computeRotFrame2 rotM acos newVector firstVector unitTangent = midM3 := by
  unfold computeRotFrame2
  rw [if_neg]
  rw [h]
  exact lt_irrefl 0

/-- Witness for claim C6 at a concrete input: alignment vectors `(1,0,0)` and
`(1,0,0)` are parallel, the rotation-matrix primitive is a non-identity stub,
and the result is still the identity. -/
theorem claim6_parallel_rotFrame2_identity_witness :
    vmag (vcross (vnorm ⟨1, 0, 0⟩) ⟨1, 0, 0⟩) = 0 ∧
    computeRotFrame2 (fun _ _ => ⟨vzero, vzero, vzero⟩) (fun _ => 0)
      ⟨1, 0, 0⟩ ⟨1, 0, 0⟩ ⟨0, 0, 1⟩ = midM3 := by
  have hcross : vcross (vnorm ⟨1, 0, 0⟩) (⟨1, 0, 0⟩ : V3) = vzero := by
    have hn : vnorm (⟨1, 0, 0⟩ : V3) = ⟨1, 0, 0⟩ := by
      rw [vnorm, vmag_unitx]
      norm_num [vsmul]
    rw [hn]
    norm_num [vcross, vzero]
  have hm : vmag (vcross (vnorm ⟨1, 0, 0⟩) (⟨1, 0, 0⟩ : V3)) = 0 := by
    rw [hcross, vmag_vzero]
  exact ⟨hm, claim6_parallel_rotFrame2_identity _ _ _ _ _ hm⟩

/-! ## Transition-element derivative replacement for the auxiliary coordinate
fields (tubemesh.py lines 299-308 and 366-376) -/

/-- Texture-coordinate derivative list (lines 299-303): entry `n1` is
`[uList[n1] - uList[n1-1], 0, 0]` for `n1 > 0` and
`[uList[n1+1] - uList[n1], 0, 0]` for `n1 = 0`. -/
def buildTextureD1List (uList : List ℝ) : List V3 :=
  (List.range uList.length).map fun n1 =>
    if 0 < n1 then ⟨uList.getD n1 0 - uList.getD (n1 - 1) 0, 0, 0⟩
    else ⟨uList.getD (n1 + 1) 0 - uList.getD n1 0, 0, 0⟩

/-- Flat-coordinate derivative list (lines 366-371): the same differences
scaled by `arcLengthOuterMidLength`. -/
def buildFlatD1List (uList : List ℝ) (arcLengthOuterMidLength : ℝ) : List V3 :=
  (List.range uList.length).map fun n1 =>
    if 0 < n1 then ⟨(uList.getD n1 0 - uList.getD (n1 - 1) 0) * arcLengthOuterMidLength, 0, 0⟩
    else ⟨(uList.getD (n1 + 1) 0 - uList.getD n1 0) * arcLengthOuterMidLength, 0, 0⟩

/-- In-place transition replacement loop (lines 306-308 and 374-376):
`for i in range(len(transitElementList)): if transitElementList[i]:
d1List[i+1] = d1List[i+2]`, executed sequentially in ascending `i`. -/
def transitReplace (transitElementList : List Bool) (d1List : List V3) : List V3 :=
  (List.range transitElementList.length).foldl
    (fun L i => if transitElementList.getD i false then L.set (i + 1) (L.getD (i + 2) vzero)
      else L) d1List

lemma transitReplace_step_length (transitElementList : List Bool) (L : List V3) (i : ℕ) :
    (if transitElementList.getD i false then L.set (i + 1) (L.getD (i + 2) vzero) else L).length
      = L.length := by
  split <;> simp

lemma transitReplace_fold_length (transitElementList : List Bool) (d1List : List V3) (n : ℕ) :
    ((List.range n).foldl
      (fun L i => if transitElementList.getD i false then L.set (i + 1) (L.getD (i + 2) vzero)
        else L) d1List).length = d1List.length := by
  induction n with
  | zero => rfl
  | succ n ih =>
      rw [List.range_succ, List.foldl_append]
      simp only [List.foldl_cons, List.foldl_nil]
      rw [transitReplace_step_length, ih]

/-- Positions at index at least `n + 1` are untouched by the first `n` steps
of the replacement loop: step `i` writes only at index `i + 1 ≤ n`. -/
lemma transitReplace_fold_getD_high (transitElementList : List Bool) (d1List : List V3)
    (n k : ℕ) (hk : n < k) :
    ((List.range n).foldl
      (fun L i => if transitElementList.getD i false then L.set (i + 1) (L.getD (i + 2) vzero)
        else L) d1List).getD k vzero = d1List.getD k vzero := by
  induction n with
  | zero => rfl
  | succ n ih =>
      rw [List.range_succ, List.foldl_append]
      simp only [List.foldl_cons, List.foldl_nil]
      have hne : n + 1 ≠ k := by omega
      have ihk := ih (by omega)
      split
      · rw [List.getD_eq_getElem?_getD, List.getElem?_set_ne hne,
          ← List.getD_eq_getElem?_getD, ihk]
      · exact ihk

/-- A fold of replacement steps whose write positions all avoid `k` preserves
the entry at `k`. -/
lemma transitReplace_fold_getD_avoid (transitElementList : List Bool) (js : List ℕ)
    (L : List V3) (k : ℕ) (h : ∀ j ∈ js, j + 1 ≠ k) :
    (js.foldl
      (fun L i => if transitElementList.getD i false then L.set (i + 1) (L.getD (i + 2) vzero)
        else L) L).getD k vzero = L.getD k vzero := by
  induction js generalizing L with
  | nil => rfl
  | cons j js ih =>
      rw [List.foldl_cons]
      rw [ih _ (fun a ha => h a (List.mem_cons_of_mem j ha))]
      have hj := h j (List.mem_cons_self j js)
      split
      · rw [List.getD_eq_getElem?_getD, List.getElem?_set_ne hj, ← List.getD_eq_getElem?_getD]
      · rfl

/-- Core behaviour of the sequential replacement loop: a flagged index `i`
ends with the original entry `i + 2` at position `i + 1` — the value read at
step `i` is the pre-replacement one, because position `i + 2` is only ever
written at the later step `i + 1`. -/
lemma transitReplace_getD_flagged (transitElementList : List Bool) (d1List : List V3)
    (i : ℕ) (hi : i < transitElementList.length)
    (hflag : transitElementList.getD i false = true) (hlen : i + 2 < d1List.length) :
    (transitReplace transitElementList d1List).getD (i + 1) vzero
      = d1List.getD (i + 2) vzero := by
  unfold transitReplace
  have hsplit : transitElementList.length = (i + 1) + (transitElementList.length - (i + 1)) := by
    omega
  rw [hsplit, List.range_add, List.foldl_append]
  have hfirst : ((List.range (i + 1)).foldl
      (fun L j => if transitElementList.getD j false then L.set (j + 1) (L.getD (j + 2) vzero)
        else L) d1List).getD (i + 1) vzero
      = d1List.getD (i + 2) vzero := by
    rw [List.range_succ, List.foldl_append]
    simp only [List.foldl_cons, List.foldl_nil, hflag, if_true]
    have hpre2 := transitReplace_fold_getD_high transitElementList d1List i (i + 2)
      (by omega)
    have hlen2 := transitReplace_fold_length transitElementList d1List i
    have hbound : i + 1 < ((List.range i).foldl
        (fun L j => if transitElementList.getD j false then L.set (j + 1) (L.getD (j + 2) vzero)
          else L) d1List).length := by
      rw [hlen2]
      omega
    rw [List.getD_eq_getElem?_getD, List.getElem?_set_self hbound]
    simp only [Option.getD_some]
    exact hpre2
  rw [transitReplace_fold_getD_avoid transitElementList _ _ (i + 1)
    (fun j hj => by
      rcases List.mem_map.mp hj with ⟨t, _, rfl⟩
      omega)]
  exact hfirst

/-- Counterexample to claim C8: with two consecutive flagged transition
intervals `transitElementList = [true, true, false]` and
`uList = [0, 1, 3, 7]`, the texture derivative list before replacement is
`[1, 1, 2, 4]` (x-components).  The loop assigns node 1 the original entry 2,
namely `2` — the width of interval 1, itself a flagged transition interval —
whereas the claim requires the derivative of the next non-transition interval
(skipping flagged interval 1), namely `4`. -/
theorem claim8_counterexample :
    (transitReplace [true, true, false] (buildTextureD1List [0, 1, 3, 7])).getD 1 vzero
      = ⟨2, 0, 0⟩ ∧ (⟨2, 0, 0⟩ : V3) ≠ ⟨4, 0, 0⟩ := by
  constructor
  · have hbase : buildTextureD1List [0, 1, 3, 7]
        = [⟨1, 0, 0⟩, ⟨1, 0, 0⟩, ⟨2, 0, 0⟩, ⟨4, 0, 0⟩] := by
      unfold buildTextureD1List
      rw [show ([0, 1, 3, 7] : List ℝ).length = 4 from rfl]
      rw [show List.range 4 = [0, 1, 2, 3] from by decide]
      simp only [List.map_cons, List.map_nil]
      norm_num [List.getD]
    rw [hbase]
    unfold transitReplace
    rw [show ([true, true, false] : List Bool).length = 3 from rfl]
    rw [show List.range 3 = [0, 1, 2] from by decide]
    simp [List.getD, List.set]
  · intro h
    have := congrArg V3.x h
    norm_num at this

/-- Claim C8 as amended: for both auxiliary coordinate systems, wherever
`transitElementList` flags index `i`, the derivative-1 value at node `i + 1`
is replaced by the *original* derivative of the immediately following
interval — entry `i + 2` of the pre-replacement list — regardless of whether
that interval is itself flagged.  (This coincides with "the next
non-transition interval" only when interval `i + 1` is not flagged.) -/
theorem claim8_amended_transition_replacement (uList : List ℝ)
    (arcLengthOuterMidLength : ℝ) (transitElementList : List Bool) (i : ℕ)
    (hi : i < transitElementList.length)
    (hflag : transitElementList.getD i false = true)
    (hlen : i + 2 < uList.length) :
    (transitReplace transitElementList (buildTextureD1List uList)).getD (i + 1) vzero
      = (buildTextureD1List uList).getD (i + 2) vzero
    ∧ (transitReplace transitElementList
        (buildFlatD1List uList arcLengthOuterMidLength)).getD (i + 1) vzero
      = (buildFlatD1List uList arcLengthOuterMidLength).getD (i + 2) vzero := by
  constructor
  · exact transitReplace_getD_flagged transitElementList (buildTextureD1List uList) i hi hflag
      (by simpa [buildTextureD1List] using hlen)
  · exact transitReplace_getD_flagged transitElementList
      (buildFlatD1List uList arcLengthOuterMidLength) i hi hflag
      (by simpa [buildFlatD1List] using hlen)

/-- Witness for the amended claim C8 at a concrete input: flags
`[true, true, false]`, `uList = [0, 1, 3, 7]`, flagged index 0. -/
theorem claim8_amended_transition_replacement_witness :
    ((0 : ℕ) < 3 ∧ ([true, true, false] : List Bool).getD 0 false = true ∧
      (0 + 2 : ℕ) < 4) ∧
    (transitReplace [true, true, false] (buildTextureD1List [0, 1, 3, 7])).getD 1 vzero
      = (buildTextureD1List [0, 1, 3, 7]).getD 2 vzero ∧
    (transitReplace [true, true, false] (buildFlatD1List [0, 1, 3, 7] 10)).getD 1 vzero
      = (buildFlatD1List [0, 1, 3, 7] 10).getD 2 vzero := by
  have h := claim8_amended_transition_replacement [0, 1, 3, 7] 10 [true, true, false] 0
    (by norm_num) (by simp) (by norm_num)
  exact ⟨⟨by norm_num, by simp, by norm_num⟩, h.1, h.2⟩

/-! ## Frame alignment stage (tubemesh.py lines 124-181)

The loop body at each station rotates and translates the profile points.
`translateMatrix` is a Python local that is only assigned in the
`magnitude(cp) > 0.0` branch (line 138) yet read unconditionally at line 176;
it is modelled as an `Option V3` carried across stations, and reading it while
unassigned makes the whole computation fail (`none`, Python
`UnboundLocalError`). -/

/-- Unit through-wall normal (line 180):
`normalise(crossproduct3(normalise(d1), normalise(d2)))`. -/
noncomputable def d3unit (d1 d2 : V3) : V3 := vnorm (vcross (vnorm d1) (vnorm d2))

/-- Loop state of the frame-alignment stage: the `translateMatrix` local
(possibly still unassigned) and the four accumulated per-vertex lists. -/
structure AlignAcc where
  translateMatrix : Option V3
  xInnerList : List V3
  d1InnerList : List V3
  d2InnerList : List V3
  d3InnerUnitList : List V3

/-- Processing of one longitudinal station (lines 129-181).  In the
`magnitude(cp) > 0` branch, `rotFrame2` is the secondary rotation computed in
the `n1 == 0` iteration (lines 151-168) and reused for the whole station.  In
the degenerate branch (`magnitude(cp) = 0`, line 139) the code only sets
`midRot = segmentMid` and applies no rotation, yet still adds
`translateMatrix` to every profile point (line 176): reading it before any
station assigned it fails. -/
noncomputable def processStation (rotM : V3 → ℝ → M3) (acos : ℝ → ℝ)
    (elementsCountAround elementsCountAlongSegment : ℕ)
    (segmentAxis : V3) (segmentLength : ℝ)
    (xInner d1Inner d2Inner : List V3)
    (nAlongSegment : ℕ) (sxn sd1n sd2n : V3) (acc : AlignAcc) : Option AlignAcc :=
  let segmentMid : V3 :=
    ⟨0, 0, segmentLength / (elementsCountAlongSegment : ℝ) * (nAlongSegment : ℝ)⟩
  let unitTangent := vnorm sd1n
  let cp := vcross segmentAxis unitTangent
  if 0 < vmag cp then
    let axisRot := vnorm cp
    let thetaRot := acos (vdot segmentAxis unitTangent)
    let rotFrame := rotM axisRot thetaRot
    let midRot := mulVec rotFrame segmentMid
    let translateMatrix := vsub sxn midRot
    let x0 := xInner.getD (nAlongSegment * elementsCountAround) vzero
    let xRot1z := mulVec rotFrame x0
    let pt := vadd midRot sd2n
    let dist := vdot sd2n unitTangent
    let ptOnPlane := vsub pt (vsmul dist unitTangent)
    let newVector := vsub ptOnPlane midRot
    let firstVector := vnorm (vsub xRot1z midRot)
    let rotFrame2 := computeRotFrame2 rotM acos newVector firstVector unitTangent
    let pts := (List.range elementsCountAround).map fun n1 =>
      let n := nAlongSegment * elementsCountAround + n1
      let xRot1 := mulVec rotFrame (xInner.getD n vzero)
      let d1Rot1 := mulVec rotFrame (d1Inner.getD n vzero)
      let d2Rot1 := mulVec rotFrame (d2Inner.getD n vzero)
      let xRot2 := mulVec rotFrame2 xRot1
      let d1Rot2 := mulVec rotFrame2 d1Rot1
      let d2Rot2 := mulVec rotFrame2 d2Rot1
      (vadd xRot2 translateMatrix, d1Rot2, d2Rot2, d3unit d1Rot2 d2Rot2)
    some { translateMatrix := some translateMatrix,
           xInnerList := acc.xInnerList ++ pts.map (fun p => p.1),
           d1InnerList := acc.d1InnerList ++ pts.map (fun p => p.2.1),
           d2InnerList := acc.d2InnerList ++ pts.map (fun p => p.2.2.1),
           d3InnerUnitList := acc.d3InnerUnitList ++ pts.map (fun p => p.2.2.2) }
  else
    match acc.translateMatrix with
    | none => none
    | some translateMatrix =>
      let pts := (List.range elementsCountAround).map fun n1 =>
        let n := nAlongSegment * elementsCountAround + n1
        let d1Rot2 := d1Inner.getD n vzero
        let d2Rot2 := d2Inner.getD n vzero
        (vadd (xInner.getD n vzero) translateMatrix, d1Rot2, d2Rot2, d3unit d1Rot2 d2Rot2)
      some { translateMatrix := some translateMatrix,
             xInnerList := acc.xInnerList ++ pts.map (fun p => p.1),
             d1InnerList := acc.d1InnerList ++ pts.map (fun p => p.2.1),
             d2InnerList := acc.d2InnerList ++ pts.map (fun p => p.2.2.1),
             d3InnerUnitList := acc.d3InnerUnitList ++ pts.map (fun p => p.2.2.2) }

/-- The whole frame-alignment stage (lines 125-181): iterate over
`(nSegment, nAlongSegment)` pairs, skipping the repeated first station of
every segment after the first (`nSegment == 0 or nAlongSegment > 0`), with
station index `n2 = nSegment*elementsCountAlongSegment + nAlongSegment`. -/
noncomputable def mapSegmentProfile (rotM : V3 → ℝ → M3) (acos : ℝ → ℝ)
    (elementsCountAround elementsCountAlongSegment segmentCountAlong : ℕ)
    (sx sd1 sd2 : List V3) (xInner d1Inner d2Inner : List V3)
    (segmentAxis : V3) (segmentLength : ℝ) : Option AlignAcc :=
  ((List.range segmentCountAlong).flatMap fun nSegment =>
    (List.range (elementsCountAlongSegment + 1)).map fun nAlongSegment =>
      (nSegment, nAlongSegment)).foldlM
    (fun acc p =>
      if p.1 = 0 ∨ 0 < p.2 then
        processStation rotM acos elementsCountAround elementsCountAlongSegment segmentAxis
          segmentLength xInner d1Inner d2Inner p.2
          (sx.getD (p.1 * elementsCountAlongSegment + p.2) vzero)
          (sd1.getD (p.1 * elementsCountAlongSegment + p.2) vzero)
          (sd2.getD (p.1 * elementsCountAlongSegment + p.2) vzero) acc
      else some acc)
    ⟨none, [], [], [], []⟩

lemma processStation_unassigned (rotM : V3 → ℝ → M3) (acos : ℝ → ℝ)
    (elementsCountAround elementsCountAlongSegment : ℕ)
    (segmentAxis : V3) (segmentLength : ℝ) (xInner d1Inner d2Inner : List V3)
    (nAlongSegment : ℕ) (sxn sd1n sd2n : V3) (acc : AlignAcc)
    (hcp : vmag (vcross segmentAxis (vnorm sd1n)) = 0)
    (hacc : acc.translateMatrix = none) :
    processStation rotM acos elementsCountAround elementsCountAlongSegment segmentAxis
      segmentLength xInner d1Inner d2Inner nAlongSegment sxn sd1n sd2n acc = none := by
  unfold processStation
  rw [if_neg (by rw [hcp]; exact lt_irrefl 0)]
  rw [hacc]

lemma vmag_unitz : vmag ⟨0, 0, 1⟩ = 1 := by
  have h : (0 : ℝ) * 0 + 0 * 0 + 1 * 1 = 1 := by norm_num
  rw [vmag, h, Real.sqrt_one]

lemma vnorm_unitz : vnorm ⟨0, 0, 1⟩ = ⟨0, 0, 1⟩ := by
  rw [vnorm, vmag_unitz]
  norm_num [vsmul]

/-- Claim C3, evaluated at the failing input: a straight tube whose unit
tangent at the first processed station equals `segmentAxis = (0,0,1)` exactly.
The cross product is zero, so the degenerate branch is taken; no station has
assigned `translateMatrix` yet, so the unconditional read at line 176 fails
(Python `UnboundLocalError`) and the stage produces no aligned points at all —
rather than the claimed translation that lands the station midpoint on the
curve position.  This holds for every rotation-matrix and `acos` primitive. -/
theorem claim3_unassigned_translateMatrix (rotM : V3 → ℝ → M3) (acos : ℝ → ℝ) :
    mapSegmentProfile rotM acos 1 1 1 [⟨0, 0, 0⟩, ⟨0, 0, 1⟩] [⟨0, 0, 1⟩, ⟨0, 0, 1⟩]
      [⟨1, 0, 0⟩, ⟨1, 0, 0⟩] [⟨1, 0, 0⟩, ⟨1, 0, 0⟩] [⟨0, 1, 0⟩, ⟨0, 1, 0⟩]
      [⟨0, 0, 1⟩, ⟨0, 0, 1⟩] ⟨0, 0, 1⟩ 1 = none := by
  have hcp : vmag (vcross ⟨0, 0, 1⟩ (vnorm ⟨0, 0, 1⟩)) = 0 := by
    rw [vnorm_unitz]
    rw [show vcross (⟨0, 0, 1⟩ : V3) ⟨0, 0, 1⟩ = vzero by norm_num [vcross, vzero]]
    exact vmag_vzero
  unfold mapSegmentProfile
  rw [show ((List.range 1).flatMap fun nSegment =>
      (List.range (1 + 1)).map fun nAlongSegment => (nSegment, nAlongSegment))
      = [(0, 0), (0, 1)] from by decide]
  rw [List.foldlM_cons]
  rw [if_pos (Or.inl rfl)]
  rw [processStation_unassigned rotM acos 1 1 ⟨0, 0, 1⟩ 1 _ _ _ 0 _ _ _ _ (by
    simpa [List.getD] using hcp) rfl]
  rfl

/-- Witness instantiating claim C3's universally quantified external
primitives with concrete stubs. -/
theorem claim3_unassigned_translateMatrix_witness :
    mapSegmentProfile (fun _ _ => midM3) (fun _ => 0) 1 1 1 [⟨0, 0, 0⟩, ⟨0, 0, 1⟩]
      [⟨0, 0, 1⟩, ⟨0, 0, 1⟩] [⟨1, 0, 0⟩, ⟨1, 0, 0⟩] [⟨1, 0, 0⟩, ⟨1, 0, 0⟩]
      [⟨0, 1, 0⟩, ⟨0, 1, 0⟩] [⟨0, 0, 1⟩, ⟨0, 0, 1⟩] ⟨0, 0, 1⟩ 1 = none :=
  claim3_unassigned_translateMatrix (fun _ _ => midM3) (fun _ => 0)

/-! ## Central-line sampling (tubemesh.py lines 67-71, claim C9) -/

/-- Number of longitudinal elements (line 67):
`elementsCountAlong = elementsCountAlongSegment*segmentCountAlong`. -/
def elementsCountAlongOf (elementsCountAlongSegment segmentCountAlong : ℕ) : ℕ :=
  elementsCountAlongSegment * segmentCountAlong

/-- Modelled from the spec: the parametric derivative of the cubic Hermite
basis blend, companion to `interpolateCubicHermite`. -/
def interpolateCubicHermiteDerivative (v1 d1 v2 d2 : V3) (xi : ℝ) : V3 :=
  let xi2 := xi * xi
  let df1 := -(6 * xi) + 6 * xi2
  let df2 := 1 - 4 * xi + 3 * xi2
  let df3 := 6 * xi - 6 * xi2
  let df4 := -(2 * xi) + 3 * xi2
  vadd (vadd (vsmul df1 v1) (vsmul df2 d1)) (vadd (vsmul df3 v2) (vsmul df4 d2))

/-- Modelled from the spec: the external primitive
`interp.sampleCubicHermiteCurves` (not under `src/`), the Curve Sampler.  It
resamples the piecewise cubic Hermite curve `(cx, cd1)` at
`elementsCountOut + 1` stations distributed uniformly over the curve's own
parametrisation; the station tangent is the parametric derivative of the
interpolated curve scaled by the per-station parameter increment — the local
parametric speed — with no renormalisation applied. -/
noncomputable def sampleCubicHermiteCurves (cx cd1 : List V3) (elementsCountOut : ℕ) :
    List V3 × List V3 :=
  let m := cx.length - 1
  let seg := fun i : ℕ =>
    let t : ℝ := (m : ℝ) * i / elementsCountOut
    (t, min ⌊t⌋.toNat (m - 1))
  ((List.range (elementsCountOut + 1)).map fun i =>
      let tk := seg i
      interpolateCubicHermite (cx.getD tk.2 vzero) (cd1.getD tk.2 vzero)
        (cx.getD (tk.2 + 1) vzero) (cd1.getD (tk.2 + 1) vzero) (tk.1 - tk.2),
   (List.range (elementsCountOut + 1)).map fun i =>
      let tk := seg i
      vsmul ((m : ℝ) / elementsCountOut)
        (interpolateCubicHermiteDerivative (cx.getD tk.2 vzero) (cd1.getD tk.2 vzero)
          (cx.getD (tk.2 + 1) vzero) (cd1.getD (tk.2 + 1) vzero) (tk.1 - tk.2)))

/-- Claim C9: for all inputs, the sampled central-line arrays `sx` and `sd1`
have exactly `elementsCountAlong + 1` stations, where `elementsCountAlong =
elementsCountAlongSegment * segmentCountAlong`; and `sd1` is, entry for
entry, the parametric derivative of the sampled curve scaled by the uniform
per-station parameter increment — the local parametric speed — with no
renormalisation applied to any entry. -/
theorem claim9_sampler_station_count (cx cd1 : List V3)
    (elementsCountAlongSegment segmentCountAlong : ℕ) :
    (sampleCubicHermiteCurves cx cd1
        (elementsCountAlongOf elementsCountAlongSegment segmentCountAlong)).1.length
      = elementsCountAlongOf elementsCountAlongSegment segmentCountAlong + 1
    ∧ (sampleCubicHermiteCurves cx cd1
        (elementsCountAlongOf elementsCountAlongSegment segmentCountAlong)).2.length
      = elementsCountAlongOf elementsCountAlongSegment segmentCountAlong + 1
    ∧ (sampleCubicHermiteCurves cx cd1
        (elementsCountAlongOf elementsCountAlongSegment segmentCountAlong)).2
      = (List.range (elementsCountAlongOf elementsCountAlongSegment segmentCountAlong + 1)).map
          (fun i : ℕ =>
            let m := cx.length - 1
            let t : ℝ := (m : ℝ) * i
              / (elementsCountAlongOf elementsCountAlongSegment segmentCountAlong)
            let k := min ⌊t⌋.toNat (m - 1)
            vsmul ((m : ℝ) / (elementsCountAlongOf elementsCountAlongSegment segmentCountAlong))
              (interpolateCubicHermiteDerivative (cx.getD k vzero) (cd1.getD k vzero)
                (cx.getD (k + 1) vzero) (cd1.getD (k + 1) vzero) (t - k))) := by
  refine ⟨?_, ?_, rfl⟩
  · simp [sampleCubicHermiteCurves]
  · simp [sampleCubicHermiteCurves]

/-- Witness for claim C9 at a concrete input: a two-point curve resampled into
`2*1 = 2` elements gives three stations in both arrays. -/
theorem claim9_sampler_station_count_witness :
    (sampleCubicHermiteCurves [⟨0, 0, 0⟩, ⟨0, 0, 1⟩] [⟨0, 0, 1⟩, ⟨0, 0, 1⟩]
        (elementsCountAlongOf 2 1)).1.length = 3
    ∧ (sampleCubicHermiteCurves [⟨0, 0, 0⟩, ⟨0, 0, 1⟩] [⟨0, 0, 1⟩, ⟨0, 0, 1⟩]
        (elementsCountAlongOf 2 1)).2.length = 3 := by
  have h := claim9_sampler_station_count [⟨0, 0, 0⟩, ⟨0, 0, 1⟩] [⟨0, 0, 1⟩, ⟨0, 0, 1⟩] 2 1
  exact ⟨h.1, h.2.1⟩

end TubeMeshVerif
